import Mathlib

/-!
Shallow embedding of the binary build-cache layer of
`lib/spack/spack/binary_distribution.py` (flexi-framework/spack), together
with theorems settling the specification claims about it.

The embedding translates the control flow of each Python function into a
pure Lean function over an explicit environment record.  External effects
(filesystem existence checks, network fetches, gpg calls, hashing) are
fields of the environment; the observable side effects of a run (temporary
directory removal, install-prefix creation and rollback, remote mutations)
are fields of an explicit result record.
-/

namespace BinaryDistribution

/-- Errors raised by the Python code.  `died` stands for `tty.die`, which
terminates the process fatally after printing the underlying exception;
`keyError` stands for an uncaught Python `KeyError` from a dict access. -/
inductive SpackErr where
  | noOverwrite (path : String)   -- NoOverwriteException
  | noGpg                         -- NoGpgException
  | noKey                         -- NoKeyException
  | pickKey (keys : List String)  -- PickKeyException
  | noVerify                      -- NoVerifyException
  | noChecksum                    -- NoChecksumException
  | newLayout                     -- NewLayoutException
  | valueError                    -- ValueError: spec must be concrete
  | keyError                      -- uncaught KeyError from a dict lookup
  | died                          -- tty.die
deriving Repr, DecidableEq

/-- The slice of a concrete Spec object that this module reads. -/
structure SpecT where
  concrete : Bool
  short_spec : String
  dag_hash : String
  full_hash : String
deriving Repr, DecidableEq

/-! ## Rebuild Checker: `needs_rebuild` (lines 764-824) -/

/-- The slice of a remote `.spec.yaml` document that `needs_rebuild` reads:
`spec_yaml['full_hash']` when the key is present. -/
structure RemoteSpecYaml where
  full_hash : Option String
deriving Repr, DecidableEq

/-- The reason logged by `needs_rebuild` when it decides to rebuild from the
hash comparison: either the remote hash differed from the local one, or the
`full_hash` key was missing from the remote yaml. -/
inductive RebuildReason where
  | hashMismatch (remote local_ : String)
  | fullHashMissing
deriving Repr, DecidableEq

/-- Result of `needs_rebuild`: the boolean decision, and the distinguishing
reason when the decision came from the full-hash comparison (`none` on the
transport-error / empty-content fallback paths and on the match path). -/
structure NRResult where
  decision : Bool
  reason : Option RebuildReason
deriving Repr, DecidableEq

/-- `needs_rebuild(spec, mirror_url, rebuild_on_errors)`.
`fetch` is the outcome of `web_util.read_from_url` on the deterministic
`.spec.yaml` path: `.error ()` when a `URLError` was raised, `.ok contents`
otherwise.  `parse` stands for `syaml.load`.  A non-concrete spec raises
`ValueError`; a `URLError` or empty contents returns `rebuild_on_errors`;
otherwise the remote `full_hash` is compared with `spec.full_hash`. -/
def needs_rebuild (parse : String → RemoteSpecYaml) (spec : SpecT)
    (fetch : Except Unit String) (rebuild_on_errors : Bool) :
    Except SpackErr NRResult :=
  if ¬ spec.concrete then .error .valueError
  else
    match fetch with
    | .error _ => .ok ⟨rebuild_on_errors, none⟩
    | .ok yaml_contents =>
      -- `if not yaml_contents:` — a str is falsy exactly when empty
      if yaml_contents = "" then .ok ⟨rebuild_on_errors, none⟩
      else
        let spec_yaml := parse yaml_contents
        match spec_yaml.full_hash with
        | none => .ok ⟨true, some .fullHashMissing⟩
        | some remote =>
          if remote ≠ spec.full_hash then
            .ok ⟨true, some (.hashMismatch remote spec.full_hash)⟩
          else .ok ⟨false, none⟩

/-! ## Mirror Discovery cache: `get_specs` (lines 652-711) -/

/-- Environment of one `get_specs` call: whether any mirror is configured,
and the spec list the url-discovery loop would assemble (a function of
`force`, since `force` deletes previously staged files before fetching). -/
structure GetSpecsEnv where
  mirrorsConfigured : Bool
  queryResult : Bool → List SpecT

/-- Observable outcome of one `get_specs` call: the returned value, the new
value of the module-global `_cached_specs`, and whether the mirror-query
loop ran at all. -/
structure GetSpecsOut where
  result : List SpecT
  cache : Option (List SpecT)
  queriedMirrors : Bool
deriving Repr, DecidableEq

/-- The body of `get_specs` past the `if _cached_specs:` guard: warn and
return `{}` (empty) without touching the cache when no mirror is
configured, else run the discovery loop and memoize its result. -/
def get_specs_query (env : GetSpecsEnv) (force : Bool)
    (cache : Option (List SpecT)) : GetSpecsOut :=
  if ¬ env.mirrorsConfigured then ⟨[], cache, false⟩
  else
    let specs := env.queryResult force
    ⟨specs, some specs, true⟩

/-- `get_specs(force)`, with the module-global `_cached_specs` passed as
`cache` (`none` = Python `None`).  The guard is `if _cached_specs:`, which
by Python truthiness falls through both when the global is `None` and when
it is an empty list. -/
def get_specs (env : GetSpecsEnv) (force : Bool)
    (cache : Option (List SpecT)) : GetSpecsOut :=
  match cache with
  | some l => if l ≠ [] then ⟨l, some l, false⟩ else get_specs_query env force cache
  | none => get_specs_query env force cache

/-! ## Trust Layer: `sign_tarball` (lines 243-266) -/

/-- Environment of a `sign_tarball` call: whether `gpg2` is in `$PATH`,
the list returned by `Gpg.signing_keys()`, and whether the detached
signature file `<specfile>.asc` already exists on disk. -/
structure SignEnv where
  gpgAvailable : Bool
  signingKeys : List String
  ascExists : Bool
deriving Repr, DecidableEq

/-- Successful outcome of `sign_tarball`: which key `Gpg.sign` was invoked
with, and whether a pre-existing `.asc` file was removed first. -/
structure SignResult where
  usedKey : String
  removedAsc : Bool
deriving Repr, DecidableEq

/-- `sign_tarball(key, force, specfile_path)`.  No gpg2 is fatal; with no
explicit key, `Gpg.signing_keys()` is consulted: exactly one key is used,
more than one raises `PickKeyException`, zero raises `NoKeyException`.
An existing `.asc` is removed under `force`, else `NoOverwriteException`.
The match on `env.signingKeys` mirrors the source's three length tests
(`== 1`, `> 1`, `== 0`), which are mutually exclusive. -/
def sign_tarball (env : SignEnv) (key : Option String) (force : Bool) :
    Except SpackErr SignResult :=
  if ¬ env.gpgAvailable then .error .noGpg
  else
    let selected : Except SpackErr String :=
      match key with
      | some k => .ok k
      | none =>
        match env.signingKeys with
        | [k] => .ok k
        | [] => .error .noKey
        | keys => .error (.pickKey keys)
    match selected with
    | .error e => .error e
    | .ok k =>
      if env.ascExists ∧ ¬ force then .error (.noOverwrite "specfile.asc")
      else .ok ⟨k, env.ascExists⟩

/-! ## Retriever / Installer: `extract_tarball` (lines 557-649) -/

/-- `spec_dict['binary_cache_checksum']` as read back at extraction time:
the nested `hash` field, `none` when the key is absent (a dict access on a
missing key raises `KeyError`). -/
structure BCChecksum where
  hash : Option String
deriving Repr, DecidableEq

/-- `spec_dict['buildinfo']` as read back at extraction time: only the
`relative_prefix` field is consulted, via `.get` with a default. -/
structure BuildinfoRec where
  relative_prefix : Option String
deriving Repr, DecidableEq

/-- The slice of the extracted `.spec.yaml` document that `extract_tarball`
reads.  Both outer fields are accessed differently in the source:
`binary_cache_checksum` by a plain dict lookup (KeyError when missing),
`buildinfo` by `.get('buildinfo', {})` (defaulting when missing). -/
structure ExtractSpecDict where
  binary_cache_checksum : Option BCChecksum
  buildinfo : Option BuildinfoRec
deriving Repr, DecidableEq

/-- Environment of an `extract_tarball` run: filesystem/gpg/hash facts the
code observes.  `tarballChecksum` is `checksum_tarball(tarfile_path)`, the
sha256 stream-hash of the payload tarball's bytes; `newRelativePrefix` is
`os.path.relpath(spec.prefix, spack.store.layout.root)`; `relocateOk` is
whether `relocate_package` returns without raising. -/
structure ExtractEnv where
  prefixExists : Bool
  sigFileExists : Bool
  gpgVerifyOk : Bool
  tarballChecksum : String
  specDict : ExtractSpecDict
  newRelativePrefix : String
  relocateOk : Bool
  manifestExists : Bool
deriving Repr, DecidableEq

/-- Observable effects of an `extract_tarball` run.  `tmpdirRemoved` is
whether `shutil.rmtree(tmpdir)` ran (including via the final `finally`);
`prefixDeletedAtStart` is the `force` precondition deletion of a
pre-existing prefix; `prefixCreated` is whether
`install_tree(workdir, spec.prefix)` ran; `prefixRolledBack` is the
`shutil.rmtree(spec.prefix)` rollback after a `relocate_package` failure. -/
structure ExtractResult where
  outcome : Except SpackErr Unit
  tmpdirRemoved : Bool
  prefixDeletedAtStart : Bool
  prefixCreated : Bool
  prefixRolledBack : Bool
  warnedNoManifest : Bool
deriving Repr

/-- The tail of `extract_tarball` from the `checksum_tarball` call
onwards (lines 592-649), reached once the signature gate has passed or
been skipped: checksum comparison, relative-prefix layout check, payload
extraction plus `install_tree` into the live prefix, relocation with
full-prefix rollback on failure, manifest warning, and the trailing
`finally` that removes the tmpdir.  `delStart` records whether the
pre-existing prefix was force-deleted at entry. -/
def extract_after_verify (env : ExtractEnv) (delStart : Bool) :
    ExtractResult :=
  match env.specDict.binary_cache_checksum with
  | none =>
    -- KeyError from spec_dict['binary_cache_checksum']: uncaught, so the
    -- tmpdir is leaked on this path
    ⟨.error .keyError, false, delStart, false, false, false⟩
  | some bchecksum =>
    match bchecksum.hash with
    | none =>
      -- KeyError from bchecksum['hash']: likewise uncaught
      ⟨.error .keyError, false, delStart, false, false, false⟩
    | some recorded =>
      if recorded ≠ env.tarballChecksum then
        ⟨.error .noChecksum, true, delStart, false, false, false⟩
      else
        let new_relative_prefix := env.newRelativePrefix
        let buildinfo := env.specDict.buildinfo.getD ⟨none⟩
        let old_relative_prefix :=
          Option.getD buildinfo.relative_prefix new_relative_prefix
        if old_relative_prefix ≠ new_relative_prefix then
          ⟨.error .newLayout, true, delStart, false, false, false⟩
        else
          -- payload tarball extracted; install_tree(workdir, prefix):
          -- from here the install prefix is live
          if ¬ env.relocateOk then
            -- except: rmtree(spec.prefix); tty.die(e); finally: rmtree(tmpdir)
            ⟨.error .died, true, delStart, true, true, false⟩
          else
            ⟨.ok (), true, delStart, true, false, !env.manifestExists⟩

/-- `extract_tarball(spec, filename, allow_root, unsigned, force)`.
Straight-line translation of the source's ordered protocol: prefix
overwrite guard, outer unpack into a fresh tmpdir, signature gate (unless
`unsigned`), then `extract_after_verify` for the remaining steps. -/
def extract_tarball (env : ExtractEnv) (unsigned force : Bool) :
    ExtractResult :=
  if env.prefixExists ∧ ¬ force then
    -- raised before the tmpdir is even created
    ⟨.error (.noOverwrite "spec.prefix"), false, false, false, false, false⟩
  else
    let delStart := env.prefixExists  -- force-deletion of the old prefix
    -- tmpdir = mkdtemp(); outer .spack archive extracted into it
    if ¬ unsigned then
      if env.sigFileExists then
        if env.gpgVerifyOk then extract_after_verify env delStart
        else ⟨.error .died, true, delStart, false, false, false⟩
      else ⟨.error .noVerify, true, delStart, false, false, false⟩
    else extract_after_verify env delStart

/-! ## Packager: `build_tarball` (lines 301-438) -/

/-- Mutations of remote mirror state performed by `build_tarball`, in
order: `web_util.remove_url` on the existing `.spack` archive or
`.spec.yaml` metadata file (under `force`), and `web_util.push_to_url` of
the new archive and metadata file. -/
inductive RemoteEvent where
  | removeSpack
  | removeSpec
  | pushSpack
  | pushSpec
deriving Repr, DecidableEq

/-- Environment of a `build_tarball` run: concreteness of the spec, the
`web_util.url_exists` answers for the two deterministic remote names, the
success of the `make_package_relative` / `make_package_placeholder` step,
and the environment of the nested `sign_tarball` call. -/
structure BuildEnv where
  specConcrete : Bool
  remoteSpackExists : Bool
  remoteSpecExists : Bool
  relocateOk : Bool
  signEnv : SignEnv
deriving Repr, DecidableEq

/-- Observable outcome of a `build_tarball` run: the terminal result, the
ordered trace of remote mutations, and (when signing happened) the key
the metadata file was signed with. -/
structure BuildResult where
  outcome : Except SpackErr Unit
  remoteEvents : List RemoteEvent
  signedWith : Option String
deriving Repr

/-- `build_tarball(spec, outdir, force, rel, unsigned, allow_root, key,
regenerate_index)`.  A non-concrete spec raises `ValueError`; each of the
two remote artifacts is then checked with `url_exists` — existing plus no
`force` raises `NoOverwriteException` (before any remote mutation),
existing plus `force` removes the remote file.  The local
relative/placeholder relocation step dies fatally on failure; unless
`unsigned`, `sign_tarball` runs and its exceptions propagate; finally the
archive and then the metadata file are pushed. -/
def build_tarball (env : BuildEnv) (force rel unsigned : Bool)
    (key : Option String) : BuildResult :=
  if ¬ env.specConcrete then ⟨.error .valueError, [], none⟩
  else
    if env.remoteSpackExists ∧ ¬ force then
      ⟨.error (.noOverwrite "remote .spack"), [], none⟩
    else
      let ev1 : List RemoteEvent :=
        if env.remoteSpackExists then [.removeSpack] else []
      if env.remoteSpecExists ∧ ¬ force then
        ⟨.error (.noOverwrite "remote .spec.yaml"), ev1, none⟩
      else
        let ev2 : List RemoteEvent :=
          ev1 ++ (if env.remoteSpecExists then [.removeSpec] else [])
        -- install tree copied to workdir; buildinfo manifest written
        if ¬ env.relocateOk then
          -- make_package_relative / make_package_placeholder failed:
          -- scratch dirs removed, tty.die
          ⟨.error .died, ev2, none⟩
        else
          -- tarball created, checksum computed, spec.yaml written
          let signed : Except SpackErr (Option SignResult) :=
            if ¬ unsigned then
              match sign_tarball env.signEnv key force with
              | .error e => .error e
              | .ok r => .ok (some r)
            else .ok none
          match signed with
          | .error e => ⟨.error e, ev2, none⟩
          | .ok sig =>
            -- .spack bundle assembled; archive pushed, then metadata
            ⟨.ok (), ev2 ++ [.pushSpack, .pushSpec], sig.map (·.usedKey)⟩

/-! ## Rebuild reporting: `check_specs_against_mirrors` (lines 827-870) -/

/-- A mirror as consumed here: `mirror.name` and `mirror.fetch_url`. -/
structure Mirror where
  name : String
  fetch_url : String
deriving Repr, DecidableEq

/-- One element of a mirror's `rebuild_list`:
`{'short_spec': spec.short_spec, 'hash': spec.dag_hash()}`. -/
structure RebuildEntry where
  short_spec : String
  hash : String
deriving Repr, DecidableEq

/-- The per-mirror value stored in the `rebuilds` dict:
`{'mirrorName': ..., 'mirrorUrl': ..., 'rebuildSpecs': rebuild_list}`. -/
structure MirrorReport where
  mirrorName : String
  mirrorUrl : String
  rebuildSpecs : List RebuildEntry
deriving Repr, DecidableEq

/-- Python dict assignment `d[k] = v` on an association list: replaces the
binding of `k` when present, appends otherwise. -/
def dictInsert (k : String) (v : MirrorReport) :
    List (String × MirrorReport) → List (String × MirrorReport)
  | [] => [(k, v)]
  | (k0, v0) :: rest =>
    if k0 = k then (k, v) :: rest else (k0, v0) :: dictInsert k v rest

/-- The inner `for spec in specs` loop of `check_specs_against_mirrors`:
builds `rebuild_list` for one mirror (identified by its fetch url, the
only part of the mirror `needs_rebuild` receives).  `fetchRes url spec`
is the outcome of reading the spec's `.spec.yaml` from that mirror.
The second component of the result is instrumentation: the ordered list
of `(mirror_url, spec)` arguments the loop passed to `needs_rebuild`. -/
def rebuild_list_for (parse : String → RemoteSpecYaml)
    (fetchRes : String → SpecT → Except Unit String) (url : String)
    (specs : List SpecT) (rebuild_on_errors : Bool) :
    Except SpackErr (List RebuildEntry × List (String × SpecT)) :=
  match specs with
  | [] => .ok ([], [])
  | spec :: rest =>
    match needs_rebuild parse spec (fetchRes url spec) rebuild_on_errors with
    | .error e => .error e
    | .ok d =>
      match rebuild_list_for parse fetchRes url rest rebuild_on_errors with
      | .error e => .error e
      | .ok (tail, calls) =>
        if d.decision then
          .ok (⟨spec.short_spec, spec.dag_hash⟩ :: tail, (url, spec) :: calls)
        else .ok (tail, (url, spec) :: calls)

/-- The outer `for mirror in ...` loop of `check_specs_against_mirrors`,
threading the `rebuilds` dict.  The second result component accumulates
the `needs_rebuild` call trace of the inner loops, in order. -/
def check_loop (parse : String → RemoteSpecYaml)
    (fetchRes : String → SpecT → Except Unit String) (mirrors : List Mirror)
    (specs : List SpecT) (rebuild_on_errors : Bool)
    (rebuilds : List (String × MirrorReport)) :
    Except SpackErr (List (String × MirrorReport) × List (String × SpecT)) :=
  match mirrors with
  | [] => .ok (rebuilds, [])
  | m :: rest =>
    match rebuild_list_for parse fetchRes m.fetch_url specs
        rebuild_on_errors with
    | .error e => .error e
    | .ok (rebuild_list, calls) =>
      let rebuilds2 :=
        if rebuild_list ≠ [] then
          dictInsert m.fetch_url ⟨m.name, m.fetch_url, rebuild_list⟩ rebuilds
        else rebuilds
      match check_loop parse fetchRes rest specs rebuild_on_errors
          rebuilds2 with
      | .error e => .error e
      | .ok (res, calls2) => .ok (res, calls ++ calls2)

/-- `check_specs_against_mirrors(mirrors, specs, output_file,
rebuild_on_errors)`: runs `needs_rebuild` for every (mirror, spec) pair,
records a mirror in `rebuilds` exactly when its `rebuild_list` is
nonempty, and returns `1 if rebuilds else 0` alongside the report (the
call-trace instrumentation is dropped here, matching the source's
return value). -/
def check_specs_against_mirrors (parse : String → RemoteSpecYaml)
    (fetchRes : String → SpecT → Except Unit String) (mirrors : List Mirror)
    (specs : List SpecT) (rebuild_on_errors : Bool) :
    Except SpackErr (List (String × MirrorReport) × Nat) :=
  match check_loop parse fetchRes mirrors specs rebuild_on_errors [] with
  | .error e => .error e
  | .ok (rebuilds, _calls) => .ok (rebuilds, if rebuilds ≠ [] then 1 else 0)

/-- The boolean decision `needs_rebuild` produces for a given mirror url
and spec (meaningful when the spec is concrete, in which case
`needs_rebuild` always succeeds). -/
def nr_dec (parse : String → RemoteSpecYaml)
    (fetchRes : String → SpecT → Except Unit String) (url : String)
    (rebuild_on_errors : Bool) (spec : SpecT) : Bool :=
  match needs_rebuild parse spec (fetchRes url spec) rebuild_on_errors with
  | .ok d => d.decision
  | .error _ => false

/-- Specification-side recursion of the `rebuilds`-dict construction of
`check_specs_against_mirrors`, abstracted over the per-mirror
`rebuild_list` function `f`; used to characterize `check_loop`. -/
def check_pure (f : String → List RebuildEntry) :
    List Mirror → List (String × MirrorReport) → List (String × MirrorReport)
  | [], rebuilds => rebuilds
  | m :: rest, rebuilds =>
    check_pure f rest
      (if f m.fetch_url ≠ [] then
        dictInsert m.fetch_url ⟨m.name, m.fetch_url, f m.fetch_url⟩ rebuilds
      else rebuilds)

/-- The `rebuild_list` `check_specs_against_mirrors` assembles for one
mirror url over concrete specs: the short identifier and structural hash
of every spec whose `needs_rebuild` decision is true. -/
def entries_for (parse : String → RemoteSpecYaml)
    (fetchRes : String → SpecT → Except Unit String) (url : String)
    (rebuild_on_errors : Bool) (specs : List SpecT) : List RebuildEntry :=
  (specs.filter (fun s => nr_dec parse fetchRes url rebuild_on_errors s)).map
    (fun s => ⟨s.short_spec, s.dag_hash⟩)

/-! ## Helper lemmas -/

/-- When the prefix guard passes (no pre-existing prefix, or `force`) and
the signature gate passes (skipped via `unsigned`, or the signature file
is present and verifies), `extract_tarball` continues with the steps of
`extract_after_verify`. -/
theorem extract_tarball_reaches_after_verify (env : ExtractEnv)
    (unsigned force : Bool)
    (hpre : env.prefixExists = false ∨ force = true)
    (hsig : unsigned = true ∨
      (env.sigFileExists = true ∧ env.gpgVerifyOk = true)) :
    extract_tarball env unsigned force =
      extract_after_verify env env.prefixExists := by
  unfold extract_tarball
  have hguard : ¬(env.prefixExists = true ∧ ¬(force = true)) := by
    rcases hpre with h | h <;> simp [h]
  rw [if_neg hguard]
  rcases hsig with hu | ⟨h1, h2⟩
  · simp [hu]
  · simp [h1, h2]

/-! ## Claim theorems: extract_tarball -/

/-- C2: during `extract_tarball`, when the sha256 checksum computed over
the payload tarball differs from the `hash` recorded under
`binary_cache_checksum` in the metadata file, the operation fails with
the checksum-verification error, the temporary directory is removed, and
the install prefix is neither created nor left half-installed. -/
theorem C2_checksum_mismatch_aborts (env : ExtractEnv)
    (unsigned force : Bool)
    (hpre : env.prefixExists = false ∨ force = true)
    (hsig : unsigned = true ∨
      (env.sigFileExists = true ∧ env.gpgVerifyOk = true))
    (bc : BCChecksum)
    (hbc : env.specDict.binary_cache_checksum = some bc)
    (recorded : String) (hh : bc.hash = some recorded)
    (hmis : recorded ≠ env.tarballChecksum) :
    (extract_tarball env unsigned force).outcome = .error .noChecksum ∧
    (extract_tarball env unsigned force).tmpdirRemoved = true ∧
    (extract_tarball env unsigned force).prefixCreated = false ∧
    (extract_tarball env unsigned force).prefixRolledBack = false := by
  have heq := extract_tarball_reaches_after_verify env unsigned force hpre hsig
  have hval : extract_after_verify env env.prefixExists =
      ⟨.error .noChecksum, true, env.prefixExists, false, false, false⟩ := by
    unfold extract_after_verify
    simp [hbc, hh, hmis]
  rw [heq, hval]
  exact ⟨rfl, rfl, rfl, rfl⟩

/-- C3: when the relative install prefix recorded in the downloaded
metadata under `buildinfo.relative_prefix` differs from the relative
prefix computed locally from `spec.prefix` and the layout root,
`extract_tarball` fails with the layout-compatibility error, the
temporary directory is discarded, and nothing is installed. -/
theorem C3_layout_mismatch_aborts (env : ExtractEnv)
    (unsigned force : Bool)
    (hpre : env.prefixExists = false ∨ force = true)
    (hsig : unsigned = true ∨
      (env.sigFileExists = true ∧ env.gpgVerifyOk = true))
    (bc : BCChecksum)
    (hbc : env.specDict.binary_cache_checksum = some bc)
    (hcs : bc.hash = some env.tarballChecksum)
    (bi : BuildinfoRec) (hbi : env.specDict.buildinfo = some bi)
    (p : String) (hrp : bi.relative_prefix = some p)
    (hne : p ≠ env.newRelativePrefix) :
    (extract_tarball env unsigned force).outcome = .error .newLayout ∧
    (extract_tarball env unsigned force).tmpdirRemoved = true ∧
    (extract_tarball env unsigned force).prefixCreated = false ∧
    (extract_tarball env unsigned force).prefixRolledBack = false := by
  have heq := extract_tarball_reaches_after_verify env unsigned force hpre hsig
  have hval : extract_after_verify env env.prefixExists =
      ⟨.error .newLayout, true, env.prefixExists, false, false, false⟩ := by
    unfold extract_after_verify
    simp [hbc, hcs, hbi, hrp, hne]
  rw [heq, hval]
  exact ⟨rfl, rfl, rfl, rfl⟩

/-- C4: with `unsigned` not set, a missing detached signature file makes
`extract_tarball` fail with the trust (`NoVerifyException`) error, with
the temporary directory removed and the install prefix untouched; a
present signature that fails cryptographic verification likewise aborts
fatally (`tty.die`) with the temporary directory discarded. -/
theorem C4_signature_gate (env : ExtractEnv) (force : Bool)
    (hpre : env.prefixExists = false ∨ force = true) :
    (env.sigFileExists = false →
      (extract_tarball env false force).outcome = .error .noVerify ∧
      (extract_tarball env false force).tmpdirRemoved = true ∧
      (extract_tarball env false force).prefixCreated = false ∧
      (extract_tarball env false force).prefixRolledBack = false) ∧
    (env.sigFileExists = true → env.gpgVerifyOk = false →
      (extract_tarball env false force).outcome = .error .died ∧
      (extract_tarball env false force).tmpdirRemoved = true ∧
      (extract_tarball env false force).prefixCreated = false ∧
      (extract_tarball env false force).prefixRolledBack = false) := by
  have hguard : ¬(env.prefixExists = true ∧ ¬(force = true)) := by
    rcases hpre with h | h <;> simp [h]
  constructor
  · intro hsf
    have hval : extract_tarball env false force =
        ⟨.error .noVerify, true, env.prefixExists, false, false, false⟩ := by
      unfold extract_tarball
      rw [if_neg hguard]
      simp [hsf]
    rw [hval]
    exact ⟨rfl, rfl, rfl, rfl⟩
  · intro hsf hgpg
    have hval : extract_tarball env false force =
        ⟨.error .died, true, env.prefixExists, false, false, false⟩ := by
      unfold extract_tarball
      rw [if_neg hguard]
      simp [hsf, hgpg]
    rw [hval]
    exact ⟨rfl, rfl, rfl, rfl⟩

/-- C6: when an `extract_tarball` run reaches the relocation step (the
prefix guard, signature gate, checksum check and layout check have all
passed, so the payload is live in the install prefix) and
`relocate_package` raises, the entire install prefix is deleted as
rollback and the error is surfaced via the fatal `tty.die` outcome. -/
theorem C6_relocation_failure_rolls_back_prefix (env : ExtractEnv)
    (unsigned force : Bool)
    (hpre : env.prefixExists = false ∨ force = true)
    (hsig : unsigned = true ∨
      (env.sigFileExists = true ∧ env.gpgVerifyOk = true))
    (bc : BCChecksum)
    (hbc : env.specDict.binary_cache_checksum = some bc)
    (hcs : bc.hash = some env.tarballChecksum)
    (hlay : Option.getD
        (BuildinfoRec.relative_prefix (env.specDict.buildinfo.getD ⟨none⟩))
        env.newRelativePrefix = env.newRelativePrefix)
    (hrel : env.relocateOk = false) :
    (extract_tarball env unsigned force).prefixCreated = true ∧
    (extract_tarball env unsigned force).prefixRolledBack = true ∧
    (extract_tarball env unsigned force).outcome = .error .died ∧
    (extract_tarball env unsigned force).tmpdirRemoved = true := by
  have heq := extract_tarball_reaches_after_verify env unsigned force hpre hsig
  have hval : extract_after_verify env env.prefixExists =
      ⟨.error .died, true, env.prefixExists, true, true, false⟩ := by
    unfold extract_after_verify
    simp [hbc, hcs, hlay, hrel]
  rw [heq, hval]
  exact ⟨rfl, rfl, rfl, rfl⟩

/-- If the steps after verification end in the layout error, the metadata
carried a `buildinfo.relative_prefix` value differing from the locally
computed relative prefix (the defaulted cases never raise it). -/
theorem after_verify_layout_error_source (env : ExtractEnv) (d : Bool)
    (hout : (extract_after_verify env d).outcome = .error .newLayout) :
    ∃ bi p, env.specDict.buildinfo = some bi ∧
      bi.relative_prefix = some p ∧ p ≠ env.newRelativePrefix := by
  unfold extract_after_verify at hout
  cases hbc : env.specDict.binary_cache_checksum with
  | none => rw [hbc] at hout; simp at hout
  | some bc =>
    simp only [hbc] at hout
    cases hh : bc.hash with
    | none => simp only [hh] at hout; simp at hout
    | some recorded =>
      simp only [hh] at hout
      by_cases hmis : recorded = env.tarballChecksum
      · simp only [hmis, ne_eq, not_true_eq_false, if_false, ite_not] at hout
        by_cases hlay : Option.getD
            (BuildinfoRec.relative_prefix (env.specDict.buildinfo.getD ⟨none⟩))
            env.newRelativePrefix = env.newRelativePrefix
        · rw [if_pos (by simpa using hlay)] at hout
          by_cases hr : env.relocateOk
          · simp [hr] at hout
          · simp [hr] at hout
        · cases hbi : env.specDict.buildinfo with
          | none => simp [hbi] at hlay
          | some bi =>
            cases hrp : bi.relative_prefix with
            | none => simp [hbi, hrp] at hlay
            | some p =>
              refine ⟨bi, p, ?_, hrp, ?_⟩
              · simp [hbi]
              · simpa [hbi, hrp] using hlay
      · rw [if_pos hmis] at hout
        simp at hout

/-- C10: an archive whose metadata lacks the `buildinfo` section or its
`relative_prefix` field defaults the recorded relative prefix to the
locally computed one, so the layout check passes and installation
proceeds to the install-prefix population; dually, the layout error is
raised only when a recorded relative prefix is present and differs from
the local one. -/
theorem C10_relative_prefix_defaults (env : ExtractEnv)
    (unsigned force : Bool) :
    ((env.prefixExists = false ∨ force = true) →
     (unsigned = true ∨
       (env.sigFileExists = true ∧ env.gpgVerifyOk = true)) →
     ∀ bc, env.specDict.binary_cache_checksum = some bc →
       bc.hash = some env.tarballChecksum →
       (env.specDict.buildinfo = none ∨
         ∃ bi, env.specDict.buildinfo = some bi ∧
           bi.relative_prefix = none) →
       (extract_tarball env unsigned force).outcome ≠ .error .newLayout ∧
       (extract_tarball env unsigned force).prefixCreated = true) ∧
    ((extract_tarball env unsigned force).outcome = .error .newLayout →
      ∃ bi p, env.specDict.buildinfo = some bi ∧
        bi.relative_prefix = some p ∧ p ≠ env.newRelativePrefix) := by
  constructor
  · intro hpre hsig bc hbc hcs hmiss
    have heq :=
      extract_tarball_reaches_after_verify env unsigned force hpre hsig
    rw [heq]
    unfold extract_after_verify
    have hlay : Option.getD
        (BuildinfoRec.relative_prefix (env.specDict.buildinfo.getD ⟨none⟩))
        env.newRelativePrefix = env.newRelativePrefix := by
      rcases hmiss with h | ⟨bi, hbi, hrp⟩
      · simp [h]
      · simp [hbi, hrp]
    by_cases hr : env.relocateOk
    · simp [hbc, hcs, hlay, hr]
    · simp [hbc, hcs, hlay, hr]
  · intro hout
    unfold extract_tarball at hout
    by_cases hguard : env.prefixExists = true ∧ ¬(force = true)
    · rw [if_pos hguard] at hout; simp at hout
    · rw [if_neg hguard] at hout
      by_cases hu : unsigned = true
      · simp only [hu, not_true_eq_false, if_false, ite_not] at hout
        exact after_verify_layout_error_source env env.prefixExists
          (by simpa using hout)
      · simp only [hu, not_false_eq_true, if_true, ite_not] at hout
        by_cases hsf : env.sigFileExists = true
        · rw [if_pos hsf] at hout
          by_cases hv : env.gpgVerifyOk = true
          · rw [if_pos hv] at hout
            exact after_verify_layout_error_source env env.prefixExists hout
          · rw [if_neg hv] at hout; simp at hout
        · rw [if_neg hsf] at hout; simp at hout

/-- C2 witness: a recorded hash `"a"` against a computed checksum `"b"`
aborts with the checksum error and no installed prefix. -/
theorem C2_checksum_mismatch_aborts_witness :
    (extract_tarball ⟨false, false, false, "b", ⟨some ⟨some "a"⟩, none⟩,
      "rp", true, true⟩ true false).outcome = .error .noChecksum ∧
    (extract_tarball ⟨false, false, false, "b", ⟨some ⟨some "a"⟩, none⟩,
      "rp", true, true⟩ true false).tmpdirRemoved = true ∧
    (extract_tarball ⟨false, false, false, "b", ⟨some ⟨some "a"⟩, none⟩,
      "rp", true, true⟩ true false).prefixCreated = false ∧
    (extract_tarball ⟨false, false, false, "b", ⟨some ⟨some "a"⟩, none⟩,
      "rp", true, true⟩ true false).prefixRolledBack = false :=
  C2_checksum_mismatch_aborts
    ⟨false, false, false, "b", ⟨some ⟨some "a"⟩, none⟩, "rp", true, true⟩
    true false (Or.inl rfl) (Or.inl rfl) ⟨some "a"⟩ rfl "a" rfl (by decide)

/-- C3 witness: a recorded relative prefix `"old"` against a local
relative prefix `"new"` aborts with the layout error. -/
theorem C3_layout_mismatch_aborts_witness :
    (extract_tarball ⟨false, false, false, "h",
      ⟨some ⟨some "h"⟩, some ⟨some "old"⟩⟩, "new", true, true⟩
      true false).outcome = .error .newLayout ∧
    (extract_tarball ⟨false, false, false, "h",
      ⟨some ⟨some "h"⟩, some ⟨some "old"⟩⟩, "new", true, true⟩
      true false).tmpdirRemoved = true ∧
    (extract_tarball ⟨false, false, false, "h",
      ⟨some ⟨some "h"⟩, some ⟨some "old"⟩⟩, "new", true, true⟩
      true false).prefixCreated = false ∧
    (extract_tarball ⟨false, false, false, "h",
      ⟨some ⟨some "h"⟩, some ⟨some "old"⟩⟩, "new", true, true⟩
      true false).prefixRolledBack = false :=
  C3_layout_mismatch_aborts
    ⟨false, false, false, "h", ⟨some ⟨some "h"⟩, some ⟨some "old"⟩⟩,
      "new", true, true⟩
    true false (Or.inl rfl) (Or.inl rfl) ⟨some "h"⟩ rfl rfl
    ⟨some "old"⟩ rfl "old" rfl (by decide)

/-- C4 witness: a verification-enabled run with no signature file aborts
with the trust error, tmpdir removed, prefix untouched. -/
theorem C4_signature_gate_witness :
    (extract_tarball ⟨false, false, false, "h", ⟨some ⟨some "h"⟩, none⟩,
      "rp", true, true⟩ false false).outcome = .error .noVerify ∧
    (extract_tarball ⟨false, false, false, "h", ⟨some ⟨some "h"⟩, none⟩,
      "rp", true, true⟩ false false).tmpdirRemoved = true ∧
    (extract_tarball ⟨false, false, false, "h", ⟨some ⟨some "h"⟩, none⟩,
      "rp", true, true⟩ false false).prefixCreated = false ∧
    (extract_tarball ⟨false, false, false, "h", ⟨some ⟨some "h"⟩, none⟩,
      "rp", true, true⟩ false false).prefixRolledBack = false :=
  (C4_signature_gate
    ⟨false, false, false, "h", ⟨some ⟨some "h"⟩, none⟩, "rp", true, true⟩
    false (Or.inl rfl)).1 rfl

/-- C6 witness: a failing relocation after a fully successful
verification pipeline rolls back the entire created prefix. -/
theorem C6_relocation_failure_rolls_back_prefix_witness :
    (extract_tarball ⟨false, false, false, "h", ⟨some ⟨some "h"⟩, none⟩,
      "rp", false, true⟩ true false).prefixCreated = true ∧
    (extract_tarball ⟨false, false, false, "h", ⟨some ⟨some "h"⟩, none⟩,
      "rp", false, true⟩ true false).prefixRolledBack = true ∧
    (extract_tarball ⟨false, false, false, "h", ⟨some ⟨some "h"⟩, none⟩,
      "rp", false, true⟩ true false).outcome = .error .died ∧
    (extract_tarball ⟨false, false, false, "h", ⟨some ⟨some "h"⟩, none⟩,
      "rp", false, true⟩ true false).tmpdirRemoved = true :=
  C6_relocation_failure_rolls_back_prefix
    ⟨false, false, false, "h", ⟨some ⟨some "h"⟩, none⟩, "rp", false, true⟩
    true false (Or.inl rfl) (Or.inl rfl) ⟨some "h"⟩ rfl rfl rfl rfl

/-- C10 witness: metadata without a `buildinfo` section installs without
a layout error. -/
theorem C10_relative_prefix_defaults_witness :
    (extract_tarball ⟨false, false, false, "h", ⟨some ⟨some "h"⟩, none⟩,
      "rp", true, true⟩ true false).outcome ≠ .error .newLayout ∧
    (extract_tarball ⟨false, false, false, "h", ⟨some ⟨some "h"⟩, none⟩,
      "rp", true, true⟩ true false).prefixCreated = true :=
  (C10_relative_prefix_defaults
    ⟨false, false, false, "h", ⟨some ⟨some "h"⟩, none⟩, "rp", true, true⟩
    true false).1 (Or.inl rfl) (Or.inl rfl) ⟨some "h"⟩ rfl rfl (Or.inl rfl)

/-! ## Claim theorems: sign_tarball, needs_rebuild -/

/-- C7: for every signing attempt with gpg available, an explicit key is
the one used (the only other possible failure being the `.asc` overwrite
guard); with no explicit key, a single available default key is used the
same way, more than one available default key fails with the
disambiguation-required `PickKeyException`, and zero available keys
fails with the `NoKeyException` configuration error. -/
theorem C7_sign_tarball_key_policy (env : SignEnv) (force : Bool)
    (hgpg : env.gpgAvailable = true) :
    (∀ k, sign_tarball env (some k) force =
        .error (.noOverwrite "specfile.asc") ∨
      sign_tarball env (some k) force = .ok ⟨k, env.ascExists⟩) ∧
    (∀ k, env.signingKeys = [k] →
      (sign_tarball env none force = .error (.noOverwrite "specfile.asc") ∨
       sign_tarball env none force = .ok ⟨k, env.ascExists⟩)) ∧
    (1 < env.signingKeys.length →
      sign_tarball env none force = .error (.pickKey env.signingKeys)) ∧
    (env.signingKeys = [] → sign_tarball env none force = .error .noKey) := by
  refine ⟨?_, ?_, ?_, ?_⟩
  · intro k
    by_cases hasc : env.ascExists = true ∧ ¬(force = true)
    · left; unfold sign_tarball; rw [if_neg (by simp [hgpg])]
      simp only []
      rw [if_pos hasc]
    · right; unfold sign_tarball; rw [if_neg (by simp [hgpg])]
      simp only []
      rw [if_neg hasc]
  · intro k hk
    by_cases hasc : env.ascExists = true ∧ ¬(force = true)
    · left; unfold sign_tarball; rw [if_neg (by simp [hgpg])]
      simp only [hk]
      rw [if_pos hasc]
    · right; unfold sign_tarball; rw [if_neg (by simp [hgpg])]
      simp only [hk]
      rw [if_neg hasc]
  · intro hlen
    unfold sign_tarball
    rw [if_neg (by simp [hgpg])]
    match hk : env.signingKeys with
    | [] => rw [hk] at hlen; simp at hlen
    | [k] => rw [hk] at hlen; simp at hlen
    | k1 :: k2 :: rest => simp
  · intro hk
    unfold sign_tarball
    rw [if_neg (by simp [hgpg])]
    simp [hk]

/-- C7 witness: with gpg available and two default keys, an unspecified
key fails with the disambiguation-required error. -/
theorem C7_sign_tarball_key_policy_witness :
    (true : Bool) = true ∧
    1 < (["keyA", "keyB"] : List String).length ∧
    sign_tarball ⟨true, ["keyA", "keyB"], false⟩ none false =
      .error (.pickKey ["keyA", "keyB"]) :=
  ⟨rfl, by decide,
    (C7_sign_tarball_key_policy ⟨true, ["keyA", "keyB"], false⟩ false
      rfl).2.2.1 (by decide)⟩

/-- C1: for a concrete spec, `needs_rebuild` returns `rebuild_on_errors`
on a transport (`URLError`) failure and on empty fetched content; when
the metadata parses, a missing `full_hash` field or one differing from
the locally computed `spec.full_hash()` yields `True` with the two cases
distinguished by the logged reason, and the result is `False` exactly
when the recorded full hash equals the local one. -/
theorem C1_needs_rebuild_decision (parse : String → RemoteSpecYaml)
    (spec : SpecT) (rebuild_on_errors : Bool)
    (hconc : spec.concrete = true) :
    (needs_rebuild parse spec (.error ()) rebuild_on_errors =
      .ok ⟨rebuild_on_errors, none⟩) ∧
    (needs_rebuild parse spec (.ok "") rebuild_on_errors =
      .ok ⟨rebuild_on_errors, none⟩) ∧
    (∀ c, c ≠ "" → (parse c).full_hash = none →
      needs_rebuild parse spec (.ok c) rebuild_on_errors =
        .ok ⟨true, some .fullHashMissing⟩) ∧
    (∀ c remote, c ≠ "" → (parse c).full_hash = some remote →
      remote ≠ spec.full_hash →
      needs_rebuild parse spec (.ok c) rebuild_on_errors =
        .ok ⟨true, some (.hashMismatch remote spec.full_hash)⟩) ∧
    (∀ c, c ≠ "" →
      (needs_rebuild parse spec (.ok c) rebuild_on_errors =
          .ok ⟨false, none⟩ ↔
        (parse c).full_hash = some spec.full_hash)) := by
  refine ⟨?_, ?_, ?_, ?_, ?_⟩
  · unfold needs_rebuild; rw [if_neg (by simp [hconc])]
  · unfold needs_rebuild; rw [if_neg (by simp [hconc])]; simp
  · intro c hc hfh
    unfold needs_rebuild; rw [if_neg (by simp [hconc])]
    simp [hc, hfh]
  · intro c remote hc hfh hne
    unfold needs_rebuild; rw [if_neg (by simp [hconc])]
    simp [hc, hfh, hne]
  · intro c hc
    unfold needs_rebuild; rw [if_neg (by simp [hconc])]
    simp only [hc, if_neg (by simpa using hc)]
    cases hfh : (parse c).full_hash with
    | none => simp
    | some remote =>
      by_cases hr : remote = spec.full_hash
      · simp [hr]
      · simp [hr]

/-- C1 witness: a matching recorded full hash yields a negative rebuild
decision. -/
theorem C1_needs_rebuild_decision_witness :
    (⟨true, "s", "dag", "fh"⟩ : SpecT).concrete = true ∧
    needs_rebuild (fun _ => ⟨some "fh"⟩) ⟨true, "s", "dag", "fh"⟩
      (.ok "contents") false = .ok ⟨false, none⟩ :=
  ⟨rfl,
    ((C1_needs_rebuild_decision (fun _ => ⟨some "fh"⟩) ⟨true, "s", "dag", "fh"⟩
      false rfl).2.2.2.2 "contents" (by decide)).mpr rfl⟩

/-! ## Claim theorems: build_tarball, get_specs -/

/-- C5: for a concrete spec, if the remote `.spack` archive or the remote
`.spec.yaml` metadata file already exists and `force` is not set,
`build_tarball` fails with an overwrite-conflict error with no remote
mutation performed; with `force` set, every existing remote artifact is
deleted before the new archive and metadata are pushed. -/
theorem C5_overwrite_policy (env : BuildEnv) (force rel unsigned : Bool)
    (key : Option String) (hconc : env.specConcrete = true) :
    (force = false →
      (env.remoteSpackExists = true ∨ env.remoteSpecExists = true) →
      (∃ p, (build_tarball env force rel unsigned key).outcome =
        .error (.noOverwrite p)) ∧
      (build_tarball env force rel unsigned key).remoteEvents = []) ∧
    (force = true →
      (build_tarball env force rel unsigned key).outcome = .ok () →
      (build_tarball env force rel unsigned key).remoteEvents =
        (if env.remoteSpackExists = true then [.removeSpack] else []) ++
        (if env.remoteSpecExists = true then [.removeSpec] else []) ++
        [.pushSpack, .pushSpec]) := by
  constructor
  · intro hf hex
    subst hf
    unfold build_tarball
    rw [if_neg (by simp [hconc])]
    by_cases hsp : env.remoteSpackExists = true
    · rw [if_pos (by simp [hsp])]
      exact ⟨⟨_, rfl⟩, rfl⟩
    · have hsc : env.remoteSpecExists = true := by
        rcases hex with h | h
        · exact absurd h hsp
        · exact h
      rw [if_neg (by simp [hsp])]
      rw [if_pos (by simp [hsc])]
      refine ⟨⟨_, rfl⟩, ?_⟩
      simp [hsp]
  · intro hf hok
    subst hf
    unfold build_tarball at hok ⊢
    rw [if_neg (by simp [hconc])] at hok ⊢
    rw [if_neg (by simp)] at hok ⊢
    rw [if_neg (by simp)] at hok ⊢
    by_cases hr : env.relocateOk = true
    · rw [if_neg (by simp [hr])] at hok ⊢
      by_cases hu : unsigned = true
      · simp [hu, List.append_assoc]
      · simp only [hu, not_false_eq_true, if_true, ite_not] at hok ⊢
        cases hs : sign_tarball env.signEnv key true with
        | error e => simp [hs] at hok
        | ok r => simp [hs, List.append_assoc]
    · rw [if_pos (by simp [hr])] at hok
      simp at hok

/-- C5 witness: with `force`, pre-existing remote archive and metadata
are removed before the new artifacts are pushed. -/
theorem C5_overwrite_policy_witness :
    (build_tarball ⟨true, true, true, true, ⟨true, ["k"], false⟩⟩
      true false true none).remoteEvents =
      (if ((⟨true, true, true, true, ⟨true, ["k"], false⟩⟩ :
          BuildEnv)).remoteSpackExists = true then [.removeSpack] else []) ++
      (if ((⟨true, true, true, true, ⟨true, ["k"], false⟩⟩ :
          BuildEnv)).remoteSpecExists = true then [.removeSpec] else []) ++
      [.pushSpack, .pushSpec] :=
  (C5_overwrite_policy ⟨true, true, true, true, ⟨true, ["k"], false⟩⟩
    true false true none rfl).2 rfl rfl

/-- C9 counterexample: `get_specs` memoizes through Python truthiness
(`if _cached_specs:`), so a first call that returned the empty spec list
does not short-circuit later calls — a subsequent call re-queries the
mirrors and can return a different list, contrary to the claim that every
subsequent call returns the first call's cached list without
re-querying. -/
theorem C9_cache_counterexample :
    (get_specs ⟨true, fun _ => []⟩ false none).result = [] ∧
    (get_specs ⟨true, fun _ => []⟩ false none).cache = some [] ∧
    (get_specs ⟨true, fun _ => [⟨true, "s", "dag", "fh"⟩]⟩ false
      (some [])).queriedMirrors = true ∧
    (get_specs ⟨true, fun _ => [⟨true, "s", "dag", "fh"⟩]⟩ false
      (some [])).result ≠ [] :=
  ⟨rfl, rfl, rfl, by simp [get_specs, get_specs_query]⟩

/-- C9 as amended: once a call has returned a NON-EMPTY spec list (so the
module-global `_cached_specs` is a non-empty list), every subsequent
call — whatever its `force` argument and mirror environment — returns
that same cached list, leaves the cache unchanged, and never queries a
mirror. -/
theorem C9_nonempty_cache_is_permanent (env : GetSpecsEnv) (force : Bool)
    (l : List SpecT) (hne : l ≠ []) :
    get_specs env force (some l) = ⟨l, some l, false⟩ := by
  unfold get_specs
  simp [hne]

/-- C9 witness: a cached one-element list is returned as-is with no
mirror query, even under `force` and a mirror offering different specs. -/
theorem C9_nonempty_cache_is_permanent_witness :
    ([⟨true, "s", "dag", "fh"⟩] : List SpecT) ≠ [] ∧
    get_specs ⟨true, fun _ => []⟩ true (some [⟨true, "s", "dag", "fh"⟩]) =
      ⟨[⟨true, "s", "dag", "fh"⟩], some [⟨true, "s", "dag", "fh"⟩], false⟩ :=
  ⟨by simp,
    C9_nonempty_cache_is_permanent ⟨true, fun _ => []⟩ true
      [⟨true, "s", "dag", "fh"⟩] (by simp)⟩

/-! ## Claim theorems: check_specs_against_mirrors -/

/-- `needs_rebuild` never raises on a concrete spec. -/
theorem needs_rebuild_concrete_ok (parse : String → RemoteSpecYaml)
    (spec : SpecT) (fetch : Except Unit String) (b : Bool)
    (h : spec.concrete = true) :
    ∃ d : NRResult, needs_rebuild parse spec fetch b = .ok d := by
  unfold needs_rebuild
  rw [if_neg (by simp [h])]
  rcases fetch with e | c
  · exact ⟨_, rfl⟩
  · dsimp only
    split
    · exact ⟨_, rfl⟩
    · split
      · exact ⟨_, rfl⟩
      · split
        · exact ⟨_, rfl⟩
        · exact ⟨_, rfl⟩

/-- Over concrete specs, the inner loop returns exactly the
`entries_for` rebuild list and consults `needs_rebuild` once per spec,
in order. -/
theorem rebuild_list_for_eq (parse : String → RemoteSpecYaml)
    (fetchRes : String → SpecT → Except Unit String) (url : String)
    (specs : List SpecT) (b : Bool)
    (hall : ∀ s ∈ specs, s.concrete = true) :
    rebuild_list_for parse fetchRes url specs b =
      .ok (entries_for parse fetchRes url b specs,
        specs.map (fun s => (url, s))) := by
  induction specs with
  | nil => simp [rebuild_list_for, entries_for]
  | cons s rest ih =>
    have hs : s.concrete = true := hall s (List.mem_cons_self s rest)
    have hrest : ∀ x ∈ rest, x.concrete = true :=
      fun x hx => hall x (List.mem_cons_of_mem s hx)
    obtain ⟨d, hd⟩ := needs_rebuild_concrete_ok parse s (fetchRes url s) b hs
    have hnd : nr_dec parse fetchRes url b s = d.decision := by
      unfold nr_dec; rw [hd]
    unfold rebuild_list_for
    rw [hd, ih hrest]
    by_cases hdec : d.decision = true
    · simp [entries_for, List.filter_cons, hnd, hdec]
    · simp [entries_for, List.filter_cons, hnd, hdec]

/-- A key is bound in `dictInsert k v l` exactly when it is `k` or was
already bound in `l`. -/
theorem dictInsert_key_mem (k : String) (v : MirrorReport)
    (l : List (String × MirrorReport)) (u : String) :
    (∃ r, (u, r) ∈ dictInsert k v l) ↔ (u = k ∨ ∃ r, (u, r) ∈ l) := by
  induction l with
  | nil => simp [dictInsert, Prod.ext_iff]
  | cons kv rest ih =>
    obtain ⟨k0, v0⟩ := kv
    by_cases hk : k0 = k
    · subst hk
      rw [show dictInsert k0 v ((k0, v0) :: rest) = (k0, v) :: rest from
        by simp [dictInsert]]
      constructor
      · rintro ⟨r, hr⟩
        rcases List.mem_cons.mp hr with h | h
        · exact Or.inl (congrArg Prod.fst h)
        · exact Or.inr ⟨r, List.mem_cons_of_mem _ h⟩
      · rintro (rfl | ⟨r, hr⟩)
        · exact ⟨v, List.mem_cons_self _ _⟩
        · rcases List.mem_cons.mp hr with h | h
          · have hu : u = k0 := congrArg Prod.fst h
            exact ⟨v, by simp [hu]⟩
          · exact ⟨r, List.mem_cons_of_mem _ h⟩
    · rw [show dictInsert k v ((k0, v0) :: rest) =
          (k0, v0) :: dictInsert k v rest from by simp [dictInsert, hk]]
      constructor
      · rintro ⟨r, hr⟩
        rcases List.mem_cons.mp hr with h | h
        · exact Or.inr ⟨r, by rw [h]; exact List.mem_cons_self _ _⟩
        · rcases ih.mp ⟨r, h⟩ with h' | ⟨r', hr'⟩
          · exact Or.inl h'
          · exact Or.inr ⟨r', List.mem_cons_of_mem _ hr'⟩
      · rintro (rfl | ⟨r, hr⟩)
        · obtain ⟨r', hr'⟩ := ih.mpr (Or.inl rfl)
          exact ⟨r', List.mem_cons_of_mem _ hr'⟩
        · rcases List.mem_cons.mp hr with h | h
          · have hu : u = k0 := congrArg Prod.fst h
            exact ⟨v0, by simp [hu]⟩
          · obtain ⟨r', hr'⟩ := ih.mpr (Or.inr ⟨r, h⟩)
            exact ⟨r', List.mem_cons_of_mem _ hr'⟩

/-- Bindings of `dictInsert` all satisfy a property holding for the
bindings of `l` and for `(k, v)`. -/
theorem dictInsert_forall (P : String → MirrorReport → Prop) (k : String)
    (v : MirrorReport) (l : List (String × MirrorReport))
    (hl : ∀ u r, (u, r) ∈ l → P u r) (hv : P k v) :
    ∀ u r, (u, r) ∈ dictInsert k v l → P u r := by
  induction l with
  | nil =>
    intro u r hr
    simp only [dictInsert, List.mem_singleton, Prod.mk.injEq] at hr
    obtain ⟨h1, h2⟩ := hr
    subst h1; subst h2; exact hv
  | cons kv rest ih =>
    obtain ⟨k0, v0⟩ := kv
    intro u r hr
    by_cases hk : k0 = k
    · subst hk
      rw [show dictInsert k0 v ((k0, v0) :: rest) = (k0, v) :: rest from
        by simp [dictInsert]] at hr
      rcases List.mem_cons.mp hr with h | h
      · have hu : u = k0 := congrArg Prod.fst h
        have hr2 : r = v := congrArg Prod.snd h
        subst hu; subst hr2; exact hv
      · exact hl u r (List.mem_cons_of_mem _ h)
    · rw [show dictInsert k v ((k0, v0) :: rest) =
          (k0, v0) :: dictInsert k v rest from by simp [dictInsert, hk]] at hr
      rcases List.mem_cons.mp hr with h | h
      · exact hl u r (by rw [h]; exact List.mem_cons_self _ _)
      · exact ih (fun u' r' h' => hl u' r' (List.mem_cons_of_mem _ h')) u r h

/-- Key membership in the `rebuilds` dict built by `check_pure`. -/
theorem check_pure_key_mem (f : String → List RebuildEntry)
    (mirrors : List Mirror) (acc : List (String × MirrorReport))
    (u : String) :
    (∃ r, (u, r) ∈ check_pure f mirrors acc) ↔
      ((∃ r, (u, r) ∈ acc) ∨
        ∃ m ∈ mirrors, m.fetch_url = u ∧ f u ≠ []) := by
  induction mirrors generalizing acc with
  | nil => simp [check_pure]
  | cons m rest ih =>
    simp only [check_pure]
    rw [ih]
    by_cases hf : f m.fetch_url = []
    · rw [if_neg (by simpa using hf)]
      constructor
      · rintro (h | ⟨m', hm', hurl, hne⟩)
        · exact Or.inl h
        · exact Or.inr ⟨m', List.mem_cons_of_mem _ hm', hurl, hne⟩
      · rintro (h | ⟨m', hm', hurl, hne⟩)
        · exact Or.inl h
        · rcases List.mem_cons.mp hm' with rfl | hm2
          · exact absurd (hurl ▸ hf) hne
          · exact Or.inr ⟨m', hm2, hurl, hne⟩
    · rw [if_pos (by simpa using hf)]
      rw [dictInsert_key_mem]
      constructor
      · rintro ((huk | h) | ⟨m', hm', hurl, hne⟩)
        · exact Or.inr ⟨m, List.mem_cons_self _ _, huk.symm,
            by rw [huk]; exact hf⟩
        · exact Or.inl h
        · exact Or.inr ⟨m', List.mem_cons_of_mem _ hm', hurl, hne⟩
      · rintro (h | ⟨m', hm', hurl, hne⟩)
        · exact Or.inl (Or.inr h)
        · rcases List.mem_cons.mp hm' with rfl | hm2
          · exact Or.inl (Or.inl hurl.symm)
          · exact Or.inr ⟨m', hm2, hurl, hne⟩

/-- When no mirror has a nonempty rebuild list, `check_pure` leaves the
dict untouched. -/
theorem check_pure_all_empty (f : String → List RebuildEntry)
    (mirrors : List Mirror) (acc : List (String × MirrorReport))
    (h : ∀ m ∈ mirrors, f m.fetch_url = []) :
    check_pure f mirrors acc = acc := by
  induction mirrors generalizing acc with
  | nil => simp [check_pure]
  | cons m rest ih =>
    simp only [check_pure]
    rw [if_neg (by simpa using h m (List.mem_cons_self m rest))]
    exact ih acc (fun m' hm' => h m' (List.mem_cons_of_mem m hm'))

/-- Every binding produced by `check_pure` carries its own key as
`mirrorUrl` and the key's rebuild list as `rebuildSpecs`. -/
theorem check_pure_values (f : String → List RebuildEntry)
    (mirrors : List Mirror) (acc : List (String × MirrorReport))
    (hacc : ∀ u r, (u, r) ∈ acc → r.mirrorUrl = u ∧ r.rebuildSpecs = f u) :
    ∀ u r, (u, r) ∈ check_pure f mirrors acc →
      r.mirrorUrl = u ∧ r.rebuildSpecs = f u := by
  induction mirrors generalizing acc with
  | nil => simpa [check_pure] using hacc
  | cons m rest ih =>
    intro u r hr
    simp only [check_pure] at hr
    by_cases hf : f m.fetch_url = []
    · rw [if_neg (by simpa using hf)] at hr
      exact ih acc hacc u r hr
    · rw [if_pos (by simpa using hf)] at hr
      refine ih _ ?_ u r hr
      exact dictInsert_forall _ _ _ _ hacc ⟨rfl, rfl⟩

/-- Over concrete specs, the outer loop is `check_pure` plus the full
(mirror × spec) `needs_rebuild` call trace. -/
theorem check_loop_eq_pure (parse : String → RemoteSpecYaml)
    (fetchRes : String → SpecT → Except Unit String)
    (mirrors : List Mirror) (specs : List SpecT) (b : Bool)
    (acc : List (String × MirrorReport))
    (hall : ∀ s ∈ specs, s.concrete = true) :
    check_loop parse fetchRes mirrors specs b acc =
      .ok (check_pure (fun url => entries_for parse fetchRes url b specs)
          mirrors acc,
        mirrors.flatMap (fun m => specs.map (fun s => (m.fetch_url, s)))) := by
  induction mirrors generalizing acc with
  | nil => simp [check_loop, check_pure]
  | cons m rest ih =>
    unfold check_loop
    simp only [rebuild_list_for_eq parse fetchRes m.fetch_url specs b hall]
    rw [ih]
    simp [check_pure, List.flatMap_cons]

/-- A mirror's rebuild list is nonempty exactly when one of the specs
needs rebuilding there. -/
theorem entries_for_ne_nil_iff (parse : String → RemoteSpecYaml)
    (fetchRes : String → SpecT → Except Unit String) (url : String)
    (b : Bool) (specs : List SpecT) :
    entries_for parse fetchRes url b specs ≠ [] ↔
      ∃ s ∈ specs, nr_dec parse fetchRes url b s = true := by
  unfold entries_for
  rw [ne_eq, List.map_eq_nil_iff, List.filter_eq_nil_iff]
  push_neg
  simp

/-- C8: over concrete specs, `check_specs_against_mirrors` consults
`needs_rebuild` for every (mirror, spec) pair in order, reports a mirror
exactly when at least one spec needs rebuilding there (each report entry
carrying the spec's short identifier and structural dag hash), and
returns 1 when any spec needs rebuilding on any mirror and 0 otherwise. -/
theorem C8_check_specs_against_mirrors_correct
    (parse : String → RemoteSpecYaml)
    (fetchRes : String → SpecT → Except Unit String) (mirrors : List Mirror)
    (specs : List SpecT) (rebuild_on_errors : Bool)
    (hall : ∀ s ∈ specs, s.concrete = true) :
    ∃ rebuilds : List (String × MirrorReport),
      check_loop parse fetchRes mirrors specs rebuild_on_errors [] =
        .ok (rebuilds,
          mirrors.flatMap (fun m => specs.map (fun s => (m.fetch_url, s)))) ∧
      check_specs_against_mirrors parse fetchRes mirrors specs
          rebuild_on_errors =
        .ok (rebuilds, if rebuilds ≠ [] then 1 else 0) ∧
      (∀ u, (∃ r, (u, r) ∈ rebuilds) ↔
        ∃ m ∈ mirrors, m.fetch_url = u ∧
          ∃ s ∈ specs, nr_dec parse fetchRes u rebuild_on_errors s = true) ∧
      (∀ u r, (u, r) ∈ rebuilds → r.mirrorUrl = u ∧
        r.rebuildSpecs =
          entries_for parse fetchRes u rebuild_on_errors specs) ∧
      ((if rebuilds ≠ [] then 1 else 0) = 1 ↔
        ∃ m ∈ mirrors, ∃ s ∈ specs,
          nr_dec parse fetchRes m.fetch_url rebuild_on_errors s = true) := by
  refine ⟨check_pure
    (fun url => entries_for parse fetchRes url rebuild_on_errors specs)
    mirrors [], ?_, ?_, ?_, ?_, ?_⟩
  · exact check_loop_eq_pure parse fetchRes mirrors specs rebuild_on_errors
      [] hall
  · unfold check_specs_against_mirrors
    rw [check_loop_eq_pure parse fetchRes mirrors specs rebuild_on_errors
      [] hall]
  · intro u
    rw [check_pure_key_mem]
    simp [entries_for_ne_nil_iff]
  · intro u r hr
    have := check_pure_values
      (fun url => entries_for parse fetchRes url rebuild_on_errors specs)
      mirrors [] (by simp) u r hr
    simpa using this
  · constructor
    · intro h1
      by_cases hnil : check_pure
          (fun url => entries_for parse fetchRes url rebuild_on_errors specs)
          mirrors [] = []
      · rw [if_neg (by simpa using hnil)] at h1
        exact absurd h1 (by simp)
      · obtain ⟨⟨u, r⟩, hur⟩ := List.exists_mem_of_ne_nil _ hnil
        rcases (check_pure_key_mem _ mirrors [] u).mp ⟨r, hur⟩ with
          h | ⟨m, hm, hurl, hne2⟩
        · simp at h
        · refine ⟨m, hm, ?_⟩
          rw [hurl]
          exact (entries_for_ne_nil_iff parse fetchRes u rebuild_on_errors
            specs).mp (by simpa using hne2)
    · rintro ⟨m, hm, s, hs, hnr⟩
      have hne : entries_for parse fetchRes m.fetch_url rebuild_on_errors
          specs ≠ [] :=
        (entries_for_ne_nil_iff parse fetchRes m.fetch_url rebuild_on_errors
          specs).mpr ⟨s, hs, hnr⟩
      obtain ⟨r, hr⟩ := (check_pure_key_mem
        (fun url => entries_for parse fetchRes url rebuild_on_errors specs)
        mirrors [] m.fetch_url).mpr (Or.inr ⟨m, hm, rfl, by simpa using hne⟩)
      have hnonnil : check_pure
          (fun url => entries_for parse fetchRes url rebuild_on_errors specs)
          mirrors [] ≠ [] := by
        intro h0
        rw [h0] at hr
        simp at hr
      rw [if_pos hnonnil]

/-- C8 witness: one mirror and one concrete spec whose remote metadata
parses without a `full_hash` yields a report and exit code 1. -/
theorem C8_check_specs_against_mirrors_correct_witness :
    ∃ rebuilds : List (String × MirrorReport),
      check_loop (fun _ => ⟨none⟩) (fun _ _ => .ok "c") [⟨"m", "u"⟩]
        [⟨true, "s", "dag", "fh"⟩] false [] =
        .ok (rebuilds,
          ([⟨"m", "u"⟩] : List Mirror).flatMap
            (fun m => ([⟨true, "s", "dag", "fh"⟩] : List SpecT).map
              (fun s => (m.fetch_url, s)))) ∧
      check_specs_against_mirrors (fun _ => ⟨none⟩) (fun _ _ => .ok "c")
        [⟨"m", "u"⟩] [⟨true, "s", "dag", "fh"⟩] false =
        .ok (rebuilds, if rebuilds ≠ [] then 1 else 0) ∧
      (∀ u, (∃ r, (u, r) ∈ rebuilds) ↔
        ∃ m ∈ ([⟨"m", "u"⟩] : List Mirror), m.fetch_url = u ∧
          ∃ s ∈ ([⟨true, "s", "dag", "fh"⟩] : List SpecT),
            nr_dec (fun _ => ⟨none⟩) (fun _ _ => .ok "c") u false s =
              true) ∧
      (∀ u r, (u, r) ∈ rebuilds → r.mirrorUrl = u ∧
        r.rebuildSpecs = entries_for (fun _ => ⟨none⟩) (fun _ _ => .ok "c")
          u false [⟨true, "s", "dag", "fh"⟩]) ∧
      ((if rebuilds ≠ [] then 1 else 0) = 1 ↔
        ∃ m ∈ ([⟨"m", "u"⟩] : List Mirror),
          ∃ s ∈ ([⟨true, "s", "dag", "fh"⟩] : List SpecT),
            nr_dec (fun _ => ⟨none⟩) (fun _ _ => .ok "c") m.fetch_url false
              s = true) :=
  C8_check_specs_against_mirrors_correct (fun _ => ⟨none⟩)
    (fun _ _ => .ok "c") [⟨"m", "u"⟩] [⟨true, "s", "dag", "fh"⟩] false
    (by intro s hs; rw [List.mem_singleton] at hs; rw [hs])

end BinaryDistribution
